import Mathlib

/-!
Request signing client for the Mekari / Qontak API (`src/cpp/example.cpp`).

A shallow embedding of `hmac_sha256`, `generate_headers`, `send_mekari_request`
and `main`, together with the properties of the signing pipeline and of the
broadcast-id extraction.

Conventions of the embedding.

* A `std::string` is a Lean `String`, read as its list of `char`s (`String.data`);
  offsets are indices into that list.
* `size_t` is a `Nat` below `2 ^ 64`; additions and subtractions on it are taken
  modulo `2 ^ 64`, and `std::string::npos` is `2 ^ 64 - 1`.
* The outside world is passed in explicitly: the keyed digest primitive `mac`,
  the clock reading returned by `std::time`, and the HTTP transport behind
  `cpr::Post` / `cpr::Get`.
-/

namespace Mekari

/-! ## Configuration constants -/

/-- The constant `CLIENT_ID`. -/
def CLIENT_ID : String := "YOUR_QONTAK_CLIENT_ID"

/-- The constant `CLIENT_SECRET`. -/
def CLIENT_SECRET : String := "YOUR_QONTAK_CLIENT_SECRET"

/-- The constant `BASE_URL`. -/
def BASE_URL : String := "https://api.mekari.com"

/-! ## The C library clock rendering used by `generate_headers` -/

/-- Broken-down calendar time, the fields of `std::tm` that the format string reads. -/
structure tm where
  tm_sec : Int
  tm_min : Int
  tm_hour : Int
  tm_mday : Int
  tm_mon : Int
  tm_year : Int
  tm_wday : Int
deriving DecidableEq, Repr

/-- The C library function `gmtime`: seconds since the epoch to UTC calendar time
(proleptic Gregorian calendar; `tm_year` counts from 1900, `tm_mon` from 0,
`tm_wday` from Sunday). `tm_year` is an unbounded integer here: the library returns a
null pointer only when the year does not fit an `int`, which no reading of a clock
within two thousand million years of the epoch reaches. -/
def gmtime (t : Int) : tm :=
  let days := t / 86400
  let rem := t % 86400
  let z := days + 719468
  let era := z / 146097
  let doe := z - era * 146097
  let yoe := (doe - doe / 1460 + doe / 36524 - doe / 146096) / 365
  let y := yoe + era * 400
  let doy := doe - (365 * yoe + yoe / 4 - yoe / 100)
  let mp := (5 * doy + 2) / 153
  let d := doy - (153 * mp + 2) / 5 + 1
  let m := if mp < 10 then mp + 3 else mp - 9
  let year := if m ≤ 2 then y + 1 else y
  { tm_sec := rem % 60
    tm_min := rem % 3600 / 60
    tm_hour := rem / 3600
    tm_mday := d
    tm_mon := m - 1
    tm_year := year - 1900
    tm_wday := (days + 4) % 7 }

/-- Decimal digits of a natural number, as `operator<<` and `strftime` print them. -/
def decimal (n : Nat) : List Char := Nat.toDigits 10 n

/-- Decimal rendering of a signed integer (the conversion `%Y`). -/
def decimal_int (i : Int) : List Char :=
  if i < 0 then '-' :: decimal i.natAbs else decimal i.natAbs

/-- Two-digit zero-padded rendering (the conversions `%d`, `%H`, `%M`, `%S`). -/
def two_digits (i : Int) : List Char :=
  if 0 ≤ i ∧ i < 10 then '0' :: decimal i.natAbs else decimal_int i

/-- Abbreviated weekday names of the "C" locale (the conversion `%a`). -/
def weekday_abbrev : List String := ["Sun", "Mon", "Tue", "Wed", "Thu", "Fri", "Sat"]

/-- Abbreviated month names of the "C" locale (the conversion `%b`). -/
def month_abbrev : List String :=
  ["Jan", "Feb", "Mar", "Apr", "May", "Jun", "Jul", "Aug", "Sep", "Oct", "Nov", "Dec"]

/-- The rendering `std::put_time(gmt, "%a, %d %b %Y %H:%M:%S GMT")` in the "C" locale;
a name outside the table is rendered as `?`. -/
def put_time (gmt : tm) : String :=
  weekday_abbrev.getD gmt.tm_wday.toNat "?" ++ ", " ++ String.mk (two_digits gmt.tm_mday) ++ " "
    ++ month_abbrev.getD gmt.tm_mon.toNat "?" ++ " " ++ String.mk (decimal_int (gmt.tm_year + 1900))
    ++ " " ++ String.mk (two_digits gmt.tm_hour) ++ ":" ++ String.mk (two_digits gmt.tm_min) ++ ":"
    ++ String.mk (two_digits gmt.tm_sec) ++ " GMT"

/-! ## `hmac_sha256` -/

/-- The table `data_bin2ascii` of the Base64 encoder: the standard alphabet. -/
def data_bin2ascii : List Char :=
  "ABCDEFGHIJKLMNOPQRSTUVWXYZabcdefghijklmnopqrstuvwxyz0123456789+/".data

/-- The encoder step `conv_bin2ascii(a) = data_bin2ascii[a & 0x3f]`. -/
def conv_bin2ascii (a : Nat) : Char := data_bin2ascii.getD (a % 64) 'A'

/-- Standard Base64 of a byte sequence without line breaks (`EVP_EncodeBlock`):
three bytes give four characters, a tail of two bytes gives three characters and
one `=`, a tail of one byte gives two characters and `==`. -/
def EVP_EncodeBlock : List Nat → List Char
  | b0 :: b1 :: b2 :: rest =>
    let l := b0 * 65536 + b1 * 256 + b2
    conv_bin2ascii (l / 262144) :: conv_bin2ascii (l / 4096) :: conv_bin2ascii (l / 64)
      :: conv_bin2ascii l :: EVP_EncodeBlock rest
  | [b0, b1] =>
    let l := b0 * 65536 + b1 * 256
    [conv_bin2ascii (l / 262144), conv_bin2ascii (l / 4096), conv_bin2ascii (l / 64), '=']
  | [b0] =>
    let l := b0 * 65536
    [conv_bin2ascii (l / 262144), conv_bin2ascii (l / 4096), '=', '=']
  | [] => []

/-- What a `BIO_f_base64` filter (without `BIO_FLAGS_BASE64_NO_NL`) has written to the
memory sink after `BIO_write` of the bytes and `BIO_flush`: the input is encoded in
lines of 48 bytes (64 characters), every line, the last partial one included, being
followed by a newline. The first argument bounds the number of lines. -/
def BIO_f_base64 : Nat → List Nat → List Char
  | 0, _ => []
  | fuel + 1, bytes =>
    if bytes = [] then []
    else EVP_EncodeBlock (bytes.take 48) ++ '\n' :: BIO_f_base64 fuel (bytes.drop 48)

/-- The `n` bytes (`unsigned char`) starting at a pointer, the memory behind the
pointer being given as a map from offsets to values. -/
def read_bytes (p : Nat → Nat) : Nat → List Nat
  | 0 => []
  | n + 1 => read_bytes p n ++ [p n % 256]

/-- The conversion of a `size_t` to `int` that passing `key.length()` as the parameter
`int key_len` performs: the value modulo `2 ^ 32`, read as a signed 32-bit number. -/
def size_t_to_int (n : Nat) : Int :=
  if n % 2 ^ 32 < 2 ^ 31 then ((n % 2 ^ 32 : Nat) : Int)
  else ((n % 2 ^ 32 : Nat) : Int) - 2 ^ 32

/-- OpenSSL's `HMAC(EVP_sha256(), key, key_len, data, data_len, NULL, NULL)`. The result
is a pointer to the digest buffer or a null pointer (`none`). A negative `key_len` is
refused with a null pointer; otherwise the first `key_len` bytes of the key and the data
go to the keyed digest primitive `mac`, whose answer is the buffer, or `none` when the
primitive fails. -/
def HMAC (mac : String → String → Option (Nat → Nat)) (key : String) (key_len : Int)
    (data : String) : Option (Nat → Nat) :=
  if key_len < 0 then none else mac (String.mk (key.data.take key_len.toNat)) data

/-- The memory sink after `BIO_write(b64, digest, n)` and `BIO_flush(b64)`: a write from
a null pointer is refused and leaves the sink empty, otherwise the `n` bytes at the
pointer pass through the Base64 filter. -/
def BIO_write_flush (digest : Option (Nat → Nat)) (n : Nat) : List Char :=
  match digest with
  | none => []
  | some p => BIO_f_base64 (n + 1) (read_bytes p n)

/-- The function `hmac_sha256`. The key length is narrowed to `int` on the way into
`HMAC`, the returned pointer is used unchecked, 32 bytes are written through the Base64
filter, and one trailing newline is removed from the result. -/
def hmac_sha256 (mac : String → String → Option (Nat → Nat)) (key data : String) : String :=
  let digest := HMAC mac key (size_t_to_int key.length) data
  let result := BIO_write_flush digest 32
  if result ≠ [] ∧ result.getLast? = some '\n' then String.mk result.dropLast
  else String.mk result

/-! ## `generate_headers` -/

/-- A `cpr::Header`: the entries in the order of the initializer list. -/
abbrev Header := List (String × String)

/-- The local `request_line` of `generate_headers`. -/
def request_line (method path : String) : String := method ++ " " ++ path ++ " HTTP/1.1"

/-- The local `payload` of `generate_headers`: the message that is signed. -/
def payload (datetime_str method path : String) : String :=
  "date: " ++ datetime_str ++ "\n" ++ request_line method path

/-- The local `auth_header` of `generate_headers`. -/
def auth_header (client_id signature : String) : String :=
  "hmac username=\"" ++ client_id ++ "\", " ++ "algorithm=\"hmac-sha256\", "
    ++ "headers=\"date request-line\", " ++ "signature=\"" ++ signature ++ "\""

/-- The local `datetime_str` of `generate_headers`, from the reading `t` of `std::time`. -/
def datetime_str (t : Int) : String := put_time (gmtime t)

/-- The function `generate_headers`; `t` is the value returned by `std::time(nullptr)`. -/
def generate_headers (mac : String → String → Option (Nat → Nat)) (t : Int)
    (method path client_id client_secret : String) : Header :=
  let signature := hmac_sha256 mac client_secret (payload (datetime_str t) method path)
  [("Authorization", auth_header client_id signature),
   ("Date", datetime_str t),
   ("Content-Type", "application/json")]

/-! ## `send_mekari_request` -/

/-- A `cpr::Response`, reduced to the two fields the program reads. -/
structure Response where
  status_code : Int
  text : String
deriving DecidableEq, Repr

/-- The default-constructed `cpr::Response()`: status code 0 and an empty body. -/
def Response.default : Response := { status_code := 0, text := "" }

/-- A call handed to the HTTP transport: `cpr::Post(url, headers, body)` or
`cpr::Get(url, headers)`. -/
inductive HttpCall where
  | Post (url : String) (headers : Header) (body : String)
  | Get (url : String) (headers : Header)
deriving DecidableEq, Repr

/-- The function `send_mekari_request`. `t` is the clock reading taken by
`generate_headers`, `transport` answers the call handed to `cpr::Post` / `cpr::Get`.
The result is the list of transport calls made together with the returned response. -/
def send_mekari_request (mac : String → String → Option (Nat → Nat)) (t : Int)
    (transport : HttpCall → Response) (method path : String) (json_payload : String) :
    List HttpCall × Response :=
  let url := BASE_URL ++ path
  let headers := generate_headers mac t method path CLIENT_ID CLIENT_SECRET
  if method = "POST" then
    ([HttpCall.Post url headers json_payload], transport (HttpCall.Post url headers json_payload))
  else if method = "GET" then
    ([HttpCall.Get url headers], transport (HttpCall.Get url headers))
  else
    ([], Response.default)

/-! ## `main` -/

/-- The value `std::string::npos`. -/
def npos : Nat := 2 ^ 64 - 1

/-- Addition on `size_t`. -/
def size_t_add (a b : Nat) : Nat := (a + b) % 2 ^ 64

/-- Subtraction on `size_t` (both arguments below `2 ^ 64`). -/
def size_t_sub (a b : Nat) : Nat := (a + 2 ^ 64 - b) % 2 ^ 64

/-- Search loop of `std::string::find`: the first offset, counted from `i`, at which
`needle` starts in the remaining characters, or `npos`. -/
def find_from (needle : List Char) : List Char → Nat → Nat
  | [], i => if needle.isPrefixOf [] then i else npos
  | c :: cs, i => if needle.isPrefixOf (c :: cs) then i else find_from needle cs (i + 1)

/-- The member `std::string::find(needle, pos)`: the first offset `≥ pos` at which
`needle` occurs, `npos` when there is none or when `pos` is beyond the end. -/
def find (s needle : String) (pos : Nat) : Nat :=
  if pos > s.length then npos else find_from needle.data (s.data.drop pos) pos

/-- The member `std::string::substr(pos, count)` for `pos ≤ size()`: at most `count`
characters from offset `pos`. -/
def substr (s : String) (pos count : Nat) : String := String.mk ((s.data.drop pos).take count)

/-- The value of the local `broadcast_id` of `main` once the extraction block has run,
as a function of `post_response.text`. -/
def broadcast_id (text : String) : String :=
  let id_pos := find text "\"id\":" 0
  if id_pos ≠ npos then
    let start := find text "\"" (size_t_add id_pos 5)
    let end_ := find text "\"" (size_t_add start 1)
    if start ≠ npos ∧ end_ ≠ npos then
      substr text (size_t_add start 1) (size_t_sub (size_t_sub end_ start) 1)
    else ""
  else ""

/-- The local `post_path` of `main`. -/
def post_path : String := "/qontak/chat/v1/broadcasts/whatsapp/direct"

/-- The local `post_payload` of `main` (a raw string literal). -/
def post_payload : String :=
  "\x7b\n" ++
  "        \"to_number\": \"6281xxxx\",\n" ++
  "        \"to_name\": \"Muhamad Iqbal\",\n" ++
  "        \"message_template_id\": \"fbd4da17-a20e-4248-993d-f95566ee10b2\",\n" ++
  "        \"channel_integration_id\": \"a2e9673a-44ac-493d-aac0-51c5a0bfb1a5\",\n" ++
  "        \"language\": \x7b\"code\": \"id\"\x7d,\n" ++
  "        \"parameters\": \x7b\n" ++
  "            \"body\": [\n" ++
  "                \x7b\"key\": \"1\", \"value\": \"customer_name\", \"value_text\": \"Iqbal\"\x7d,\n" ++
  "                \x7b\"key\": \"2\", \"value\": \"link_pdf\", \"value_text\": \"https://cdn.qontak.com/uploads/message/file/e1380eaa-bae4-4fa7-b6fc-5ae27a7d324f/20241210175811_Invoice_report_for_Fajar_Taufik.pdf\"\x7d\n" ++
  "            ]\n" ++
  "        \x7d\n" ++
  "    \x7d"

/-- The local `log_path` of `main`. -/
def log_path (broadcast_id : String) : String :=
  "/qontak/chat/v1/broadcasts/" ++ broadcast_id ++ "/whatsapp/log"

/-- What a run of `main` does: the transport calls in order, the seconds slept, the
text written to `std::cout` and `std::cerr`, and the exit code. -/
structure Outcome where
  calls : List HttpCall
  slept : Nat
  stdout : String
  stderr : String
  exit_code : Int
deriving DecidableEq, Repr

/-- The report of a response: the two lines `Status Code: ...` and `Response Body: ...`. -/
def report (r : Response) : String :=
  "Status Code: " ++ String.mk (decimal_int r.status_code) ++ "\n"
    ++ "Response Body: " ++ r.text ++ "\n"

/-- The function `main`. `t1` and `t2` are the clock readings of the first and the
second request, `transport` is the HTTP transport. -/
def main (mac : String → String → Option (Nat → Nat)) (t1 t2 : Int) (transport : HttpCall → Response) :
    Outcome :=
  let out1 := "==[ Sending Broadcast (POST) ]==\n"
  let sent1 := send_mekari_request mac t1 transport "POST" post_path post_payload
  let post_response := sent1.2
  let out2 := out1 ++ report post_response
  if post_response.status_code ≠ 201 then
    { calls := sent1.1, slept := 0, stdout := out2,
      stderr := "Failed to send broadcast.\n", exit_code := 1 }
  else
    let id := broadcast_id post_response.text
    if id = "" then
      { calls := sent1.1, slept := 0, stdout := out2,
        stderr := "Broadcast ID not found in response.\n", exit_code := 1 }
    else
      let out3 := out2 ++ "\nWaiting 10 seconds before checking log...\n"
      let out4 := out3 ++ "\n==[ Getting Broadcast Log (GET) ]==\n"
      let sent2 := send_mekari_request mac t2 transport "GET" (log_path id) ""
      let log_response := sent2.2
      { calls := sent1.1 ++ sent2.1, slept := 10, stdout := out4 ++ report log_response,
        stderr := "", exit_code := 0 }

/-! ## The field extractor the specification describes

The source has no JSON parser. The definitions of this section follow the JSON grammar
(RFC 8259) and section 4.4 of the specification; they serve as the reference in the
comparison with `broadcast_id`. -/

/-- A JSON document tree; a number keeps its lexeme. -/
inductive Json where
  | null
  | bool (b : Bool)
  | num (lexeme : String)
  | str (s : String)
  | arr (items : List Json)
  | obj (members : List (String × Json))

/-- Skips JSON whitespace. -/
def skip_ws : List Char → List Char
  | [] => []
  | c :: cs => if c = ' ' ∨ c = '\n' ∨ c = '\r' ∨ c = '\t' then skip_ws cs else c :: cs

/-- Value of a hexadecimal digit. -/
def hex_value (c : Char) : Option Nat :=
  if '0' ≤ c ∧ c ≤ '9' then some (c.toNat - 48)
  else if 'a' ≤ c ∧ c ≤ 'f' then some (c.toNat - 87)
  else if 'A' ≤ c ∧ c ≤ 'F' then some (c.toNat - 55)
  else none

/-- Reads the rest of a JSON string after its opening quote: the decoded characters
and the input after the closing quote. -/
def parse_string_body : Nat → List Char → Option (List Char × List Char)
  | 0, _ => none
  | _ + 1, [] => none
  | fuel + 1, c :: cs =>
    if c = '"' then some ([], cs)
    else if c = '\\' then
      match cs with
      | [] => none
      | e :: rest =>
        if e = 'u' then
          match rest with
          | a :: b :: c :: d :: rest4 =>
            match hex_value a, hex_value b, hex_value c, hex_value d with
            | some x, some y, some z, some w =>
              (parse_string_body fuel rest4).map
                (fun r => (Char.ofNat (x * 4096 + y * 256 + z * 16 + w) :: r.1, r.2))
            | _, _, _, _ => none
          | _ => none
        else
          let decoded : Option Char :=
            if e = '"' then some '"' else if e = '\\' then some '\\'
            else if e = '/' then some '/' else if e = 'b' then some (Char.ofNat 8)
            else if e = 'f' then some (Char.ofNat 12) else if e = 'n' then some '\n'
            else if e = 'r' then some '\r' else if e = 't' then some '\t' else none
          match decoded with
          | none => none
          | some ch => (parse_string_body fuel rest).map (fun r => (ch :: r.1, r.2))
    else if c.toNat < 32 then none
    else (parse_string_body fuel cs).map (fun r => (c :: r.1, r.2))

/-- Reads a JSON number: its lexeme and the input after it. -/
def parse_number (cs : List Char) : Option (List Char × List Char) :=
  let signed := match cs with
    | '-' :: r => (['-'], r)
    | _ => ([], cs)
  let int_part := signed.2.span Char.isDigit
  if int_part.1 = [] ∨ (1 < int_part.1.length ∧ int_part.1.head? = some '0') then none
  else
    let frac : Option (List Char × List Char) := match int_part.2 with
      | '.' :: r =>
        let ds := r.span Char.isDigit
        if ds.1 = [] then none else some ('.' :: ds.1, ds.2)
      | r => some ([], r)
    match frac with
    | none => none
    | some (fr, r1) =>
      let exp : Option (List Char × List Char) := match r1 with
        | e :: r =>
          if e = 'e' ∨ e = 'E' then
            let sgn := match r with
              | s :: r2 => if s = '+' ∨ s = '-' then ([s], r2) else ([], r)
              | [] => ([], r)
            let ds := sgn.2.span Char.isDigit
            if ds.1 = [] then none else some (e :: sgn.1 ++ ds.1, ds.2)
          else some ([], r1)
        | [] => some ([], r1)
      match exp with
      | none => none
      | some (ex, r2) => some (signed.1 ++ int_part.1 ++ fr ++ ex, r2)

mutual
/-- Reads one JSON value (leading whitespace allowed): the tree and the input after it. -/
def parse_value : Nat → List Char → Option (Json × List Char)
  | 0, _ => none
  | fuel + 1, cs =>
    match skip_ws cs with
    | [] => none
    | c :: r =>
      if c = '"' then (parse_string_body (r.length + 1) r).map (fun p => (Json.str (String.mk p.1), p.2))
      else if c = '[' then
        match skip_ws r with
        | [] => none
        | c2 :: r2 => if c2 = ']' then some (Json.arr [], r2)
          else (parse_elements fuel r).map (fun p => (Json.arr p.1, p.2))
      else if c = '\x7b' then
        match skip_ws r with
        | [] => none
        | c2 :: r2 => if c2 = '\x7d' then some (Json.obj [], r2)
          else (parse_members fuel r).map (fun p => (Json.obj p.1, p.2))
      else if "null".data.isPrefixOf (c :: r) then some (Json.null, (c :: r).drop 4)
      else if "true".data.isPrefixOf (c :: r) then some (Json.bool true, (c :: r).drop 4)
      else if "false".data.isPrefixOf (c :: r) then some (Json.bool false, (c :: r).drop 5)
      else (parse_number (c :: r)).map (fun p => (Json.num (String.mk p.1), p.2))
/-- Reads the elements of a non-empty array up to and including the closing bracket. -/
def parse_elements : Nat → List Char → Option (List Json × List Char)
  | 0, _ => none
  | fuel + 1, cs =>
    match parse_value fuel cs with
    | none => none
    | some (v, r) =>
      match skip_ws r with
      | [] => none
      | c :: r2 =>
        if c = ',' then (parse_elements fuel r2).map (fun p => (v :: p.1, p.2))
        else if c = ']' then some ([v], r2)
        else none
/-- Reads the members of a non-empty object up to and including the closing brace. -/
def parse_members : Nat → List Char → Option (List (String × Json) × List Char)
  | 0, _ => none
  | fuel + 1, cs =>
    match skip_ws cs with
    | [] => none
    | q :: r =>
      if q = '"' then
        match parse_string_body (r.length + 1) r with
        | none => none
        | some (k, r1) =>
          match skip_ws r1 with
          | [] => none
          | c :: r2 =>
            if c = ':' then
              match parse_value fuel r2 with
              | none => none
              | some (v, r3) =>
                match skip_ws r3 with
                | [] => none
                | c3 :: r4 =>
                  if c3 = ',' then
                    (parse_members fuel r4).map (fun p => ((String.mk k, v) :: p.1, p.2))
                  else if c3 = '\x7d' then some ([(String.mk k, v)], r4)
                  else none
            else none
      else none
end

/-- Parses a whole text as one JSON document; `none` when it is not valid JSON. -/
def parse_json (body : String) : Option Json :=
  match parse_value (2 * body.length + 2) body.data with
  | none => none
  | some (v, r) => if skip_ws r = [] then some v else none

/-- The error kinds of the extractor. -/
inductive ExtractError where
  | ParseError
deriving DecidableEq, Repr

/-- The extractor as the specification words it (section 4.4), the reference that the
substring search `broadcast_id` of the source is compared with. The body is parsed as
JSON; text that is not valid JSON gives `ParseError`; otherwise the field is looked up
at the top level of the root object and its value is returned when it is a string,
absent in every other case. -/
def extractField (body fieldName : String) : Except ExtractError (Option String) :=
  match parse_json body with
  | none => Except.error ExtractError.ParseError
  | some (Json.obj members) =>
    match members.lookup fieldName with
    | some (Json.str s) => Except.ok (some s)
    | _ => Except.ok none
  | some _ => Except.ok none

/-! ## Vocabulary of the properties -/

/-- The text between the leading `date: ` of a message and its first line feed. -/
def date_line (message : String) : Option String :=
  if "date: ".data.isPrefixOf message.data then
    some (String.mk ((message.data.drop 6).takeWhile (fun c => c != '\n')))
  else none

/-- The text searched for by `main`: a quoted `id` followed by a colon. -/
def id_key : List Char := ['"', 'i', 'd', '"', ':']

/-- The call that `main` hands to the transport first. -/
def create_call (mac : String → String → Option (Nat → Nat)) (t1 : Int) : HttpCall :=
  HttpCall.Post (BASE_URL ++ post_path)
    (generate_headers mac t1 "POST" post_path CLIENT_ID CLIENT_SECRET) post_payload

/-- A digest primitive for the examples: every byte of the buffer is zero. -/
def zero_digest : String → String → Option (Nat → Nat) := fun _ _ => some (fun _ => 0)

/-- A digest primitive for the examples: byte `i` of the buffer is `i`. -/
def counting_digest : String → String → Option (Nat → Nat) := fun _ _ => some (fun i => i)

/-- A key of `2 ^ 31` bytes, each the character `k`. -/
def long_key : String := String.mk (List.replicate (2 ^ 31) 'k')

/-- A transport for the examples: the create call is answered with status 201 and the
body `{"id":"xyz"}`, the log call with status 200. -/
def example_transport : HttpCall → Response
  | HttpCall.Post _ _ _ => ⟨201, "\x7b\"id\":\"xyz\"\x7d"⟩
  | HttpCall.Get _ _ => ⟨200, "[]"⟩

/-- A transport for the examples that answers every call with status 201 and the given body. -/
def constant_transport (body : String) : HttpCall → Response := fun _ => ⟨201, body⟩

/-! ## Checks of the library models on known values -/

theorem datetime_str_examples :
    datetime_str 0 = "Thu, 01 Jan 1970 00:00:00 GMT"
    ∧ datetime_str (-1) = "Wed, 31 Dec 1969 23:59:59 GMT"
    ∧ datetime_str 951782400 = "Tue, 29 Feb 2000 00:00:00 GMT"
    ∧ datetime_str 1793363696 = "Fri, 30 Oct 2026 12:34:56 GMT" := by
  decide

theorem EVP_EncodeBlock_examples :
    EVP_EncodeBlock [102] = "Zg==".data
    ∧ EVP_EncodeBlock [102, 111] = "Zm8=".data
    ∧ EVP_EncodeBlock [102, 111, 111] = "Zm9v".data
    ∧ EVP_EncodeBlock [102, 111, 111, 98, 97, 114] = "Zm9vYmFy".data
    ∧ EVP_EncodeBlock [255, 239, 190] = "/+++".data := by
  decide

theorem extractField_examples :
    extractField "\x7b\"id\":\"abc-123\"\x7d" "id" = Except.ok (some "abc-123")
    ∧ extractField "\x7b\x7d" "id" = Except.ok none
    ∧ extractField "not json" "id" = Except.error ExtractError.ParseError
    ∧ extractField "\x7b\"a\": \x7b\"code\": \"id\"\x7d, \"b\": [\x7b\"k\": 1\x7d],\n \"id\": \"z\"\x7d" "id"
        = Except.ok (some "z")
    ∧ extractField "\x7b\"a\": \x7b\"code\": \"id\"\x7d, \"b\": [\x7b\"k\": 1\x7d],\n \"id\": \"z\"\x7d" "a"
        = Except.ok none
    ∧ extractField "[1, -2.5e+3, true, null, \"a\\u0041\\n\"]" "id" = Except.ok none
    ∧ extractField "\x7b\"id\":\"x\"\x7d trailing" "id" = Except.error ExtractError.ParseError :=
  ⟨rfl, rfl, rfl, rfl, rfl, rfl, rfl⟩

/-! ## The rendered timestamp contains no line feed -/

theorem digitChar_ne_newline (d : Nat) (hd : d < 10) : Nat.digitChar d ≠ '\n' := by
  interval_cases d <;> decide

theorem newline_not_mem_toDigitsCore (fuel : Nat) : ∀ (n : Nat) (acc : List Char),
    '\n' ∉ acc → '\n' ∉ Nat.toDigitsCore 10 fuel n acc := by
  induction fuel with
  | zero => intro n acc h; simpa [Nat.toDigitsCore] using h
  | succ f ih =>
    intro n acc h
    have hd : '\n' ≠ Nat.digitChar (n % 10) :=
      fun e => digitChar_ne_newline (n % 10) (Nat.mod_lt _ (by decide)) e.symm
    have hacc : '\n' ∉ Nat.digitChar (n % 10) :: acc := by
      simp only [List.mem_cons, not_or]; exact ⟨hd, h⟩
    unfold Nat.toDigitsCore
    dsimp only
    split
    · exact hacc
    · exact ih _ _ hacc

theorem newline_not_mem_decimal (n : Nat) : '\n' ∉ decimal n := by
  unfold decimal Nat.toDigits
  exact newline_not_mem_toDigitsCore _ _ _ (by simp)

theorem newline_not_mem_decimal_int (i : Int) : '\n' ∉ decimal_int i := by
  unfold decimal_int
  split
  · simp only [List.mem_cons, not_or]
    exact ⟨by decide, newline_not_mem_decimal _⟩
  · exact newline_not_mem_decimal _

theorem newline_not_mem_two_digits (i : Int) : '\n' ∉ two_digits i := by
  unfold two_digits
  split
  · simp only [List.mem_cons, not_or]
    exact ⟨by decide, newline_not_mem_decimal _⟩
  · exact newline_not_mem_decimal_int _

theorem newline_not_mem_getD (l : List String) (d : String) (n : Nat)
    (hl : ∀ s ∈ l, '\n' ∉ s.data) (hd : '\n' ∉ d.data) : '\n' ∉ (l.getD n d).data := by
  rw [List.getD_eq_getElem?_getD]
  cases h : l[n]? with
  | none => simpa using hd
  | some s =>
    have hs : s ∈ l := List.getElem?_mem h
    simpa using hl s hs

theorem newline_not_mem_put_time (gmt : tm) : '\n' ∉ (put_time gmt).data := by
  have hw := newline_not_mem_getD weekday_abbrev "?" gmt.tm_wday.toNat (by decide) (by decide)
  have hm := newline_not_mem_getD month_abbrev "?" gmt.tm_mon.toNat (by decide) (by decide)
  simp only [put_time, String.data_append, List.mem_append, not_or]
  repeat' apply And.intro
  all_goals first
    | exact hw
    | exact hm
    | exact newline_not_mem_two_digits _
    | exact newline_not_mem_decimal_int _
    | decide

theorem newline_not_mem_datetime_str (t : Int) : '\n' ∉ (datetime_str t).data :=
  newline_not_mem_put_time (gmtime t)

/-! ## The signing payload -/

theorem takeWhile_until (c : Char) (a b : List Char) (h : c ∉ a) :
    (a ++ c :: b).takeWhile (fun x => x != c) = a := by
  induction a with
  | nil => simp
  | cons x xs ih =>
    simp only [List.mem_cons, not_or] at h
    have hx : (x != c) = true := by simpa using fun e => h.1 e.symm
    simp [List.takeWhile, hx, ih h.2]

theorem payload_data (ts method path : String) :
    (payload ts method path).data
      = "date: ".data
        ++ (ts.data ++ '\n' :: (method.data ++ ' ' :: (path.data ++ " HTTP/1.1".data))) := by
  simp [payload, request_line, String.data_append]

theorem date_line_payload (ts method path : String) (h : '\n' ∉ ts.data) :
    date_line (payload ts method path) = some ts := by
  have hd : (payload ts method path).data
      = 'd' :: 'a' :: 't' :: 'e' :: ':' :: ' '
        :: (ts.data ++ '\n' :: (request_line method path).data) := by
    simp [payload, String.data_append]
  unfold date_line
  rw [hd]
  simp [List.isPrefixOf, takeWhile_until _ _ _ h]

theorem payload_count_newline (ts method path : String) (h1 : '\n' ∉ ts.data)
    (h2 : '\n' ∉ method.data) (h3 : '\n' ∉ path.data) :
    (payload ts method path).data.count '\n' = 1 := by
  rw [payload_data]
  simp only [List.count_append, List.count_cons, List.count_eq_zero_of_not_mem h1,
    List.count_eq_zero_of_not_mem h2, List.count_eq_zero_of_not_mem h3]
  decide

theorem payload_getLast (ts method path : String) :
    (payload ts method path).data.getLast? = some '1' := by
  have h : (payload ts method path).data
      = ("date: ".data ++ (ts.data ++ '\n' :: (method.data ++ ' ' :: (path.data
          ++ " HTTP/1.".data)))) ++ ['1'] := by
    rw [payload_data]
    simp
  rw [h, List.getLast?_concat]

theorem append_cons_inj (c : Char) : ∀ (a a2 b b2 : List Char), c ∉ a → c ∉ a2 →
    a ++ c :: b = a2 ++ c :: b2 → a = a2 ∧ b = b2 := by
  intro a
  induction a with
  | nil =>
    intro a2 b b2 _ h2 h
    cases a2 with
    | nil => simpa using h
    | cons x xs =>
      simp only [List.nil_append, List.cons_append, List.cons.injEq] at h
      exact absurd (h.1 ▸ List.mem_cons_self _ _) h2
  | cons x xs ih =>
    intro a2 b b2 h1 h2 h
    cases a2 with
    | nil =>
      simp only [List.nil_append, List.cons_append, List.cons.injEq] at h
      exact absurd (h.1 ▸ List.mem_cons_self _ _) h1
    | cons y ys =>
      simp only [List.cons_append, List.cons.injEq] at h
      simp only [List.mem_cons, not_or] at h1 h2
      obtain ⟨e1, e2⟩ := ih ys b b2 h1.2 h2.2 h.2
      exact ⟨by rw [h.1, e1], e2⟩

/-- C1: for every method, path, client id, client secret and clock reading, the message
signed in `generate_headers` is `payload (datetime_str t) method path`, and the value of
the `Date` entry of the returned headers is exactly the text standing between `date: `
and the first line feed of that message, namely the one rendering `datetime_str t` of
the clock reading. -/
theorem date_header_is_signed_date (mac : String → String → Option (Nat → Nat)) (t : Int)
    (method path client_id client_secret : String) :
    (generate_headers mac t method path client_id client_secret).lookup "Authorization"
        = some (auth_header client_id
            (hmac_sha256 mac client_secret (payload (datetime_str t) method path)))
    ∧ (generate_headers mac t method path client_id client_secret).lookup "Date"
        = date_line (payload (datetime_str t) method path)
    ∧ (generate_headers mac t method path client_id client_secret).lookup "Date"
        = some (datetime_str t) := by
  refine ⟨rfl, ?_, rfl⟩
  rw [date_line_payload _ _ _ (newline_not_mem_datetime_str t)]
  rfl

/-- C2: for every method, path and timestamp `ts`, the message built for signing is
exactly `"date: " ++ ts ++ "\n" ++ method ++ " " ++ path ++ " HTTP/1.1"`; it ends in the
character `1`, so it has no trailing line feed; with the rendered timestamp it holds
exactly one line feed when method and path hold none; it is this very string that
`generate_headers` hands to `hmac_sha256`; and the epoch timestamp with `GET` and `/test`
gives `date: Thu, 01 Jan 1970 00:00:00 GMT\nGET /test HTTP/1.1`. -/
theorem payload_is_exact_signing_string :
    (∀ ts method path : String,
      payload ts method path = "date: " ++ ts ++ "\n" ++ method ++ " " ++ path ++ " HTTP/1.1"
      ∧ (payload ts method path).data.getLast? = some '1')
    ∧ (∀ (t : Int) (method path : String), '\n' ∉ method.data → '\n' ∉ path.data →
      (payload (datetime_str t) method path).data.count '\n' = 1)
    ∧ (∀ (mac : String → String → Option (Nat → Nat)) (t : Int)
        (method path client_id client_secret : String),
      (generate_headers mac t method path client_id client_secret).lookup "Authorization"
        = some (auth_header client_id (hmac_sha256 mac client_secret
            ("date: " ++ datetime_str t ++ "\n" ++ method ++ " " ++ path ++ " HTTP/1.1"))))
    ∧ datetime_str 0 = "Thu, 01 Jan 1970 00:00:00 GMT"
    ∧ payload "Thu, 01 Jan 1970 00:00:00 GMT" "GET" "/test"
        = "date: Thu, 01 Jan 1970 00:00:00 GMT\nGET /test HTTP/1.1" := by
  have hp : ∀ ts method path : String,
      payload ts method path
        = "date: " ++ ts ++ "\n" ++ method ++ " " ++ path ++ " HTTP/1.1" := by
    intro ts method path
    simp only [payload, request_line, String.append_assoc]
  refine ⟨fun ts method path => ⟨hp ts method path, payload_getLast ts method path⟩,
    fun t method path h2 h3 =>
      payload_count_newline _ _ _ (newline_not_mem_datetime_str t) h2 h3,
    fun mac t method path client_id client_secret => ?_, by decide, by decide⟩
  rw [← hp]
  rfl

/-- Witness of C2 at the epoch clock reading with method `GET` and path `/test`. -/
theorem payload_is_exact_signing_string_witness :
    ('\n' ∉ "GET".data ∧ '\n' ∉ "/test".data)
    ∧ (payload (datetime_str 0) "GET" "/test").data.count '\n' = 1 :=
  ⟨⟨by decide, by decide⟩,
    payload_is_exact_signing_string.2.1 0 "GET" "/test" (by decide) (by decide)⟩

/-- C3: for every method, path, client id and client secret (and clock reading),
`generate_headers` returns exactly three entries: `Authorization` with the value
`hmac username="<client_id>", algorithm="hmac-sha256", headers="date request-line",
signature="<sig>"` where `sig` is `hmac_sha256` of the client secret and the signing
payload, `Date` with the rendered timestamp, and `Content-Type` with
`application/json`. -/
theorem generate_headers_entries (mac : String → String → Option (Nat → Nat)) (t : Int)
    (method path client_id client_secret : String) :
    generate_headers mac t method path client_id client_secret
      = [("Authorization",
          "hmac username=\"" ++ client_id
            ++ "\", algorithm=\"hmac-sha256\", headers=\"date request-line\", signature=\""
            ++ hmac_sha256 mac client_secret (payload (datetime_str t) method path) ++ "\""),
         ("Date", datetime_str t),
         ("Content-Type", "application/json")]
    ∧ (generate_headers mac t method path client_id client_secret).length = 3 := by
  refine ⟨?_, rfl⟩
  have ha : ∀ sig : String, auth_header client_id sig
      = "hmac username=\"" ++ client_id
        ++ "\", algorithm=\"hmac-sha256\", headers=\"date request-line\", signature=\""
        ++ sig ++ "\"" := by
    intro sig
    simp only [auth_header, String.append_assoc, String.reduceAppend]
  rw [← ha]
  rfl

/-! ## The Base64 signature -/

theorem conv_bin2ascii_ne_newline (a : Nat) : conv_bin2ascii a ≠ '\n' := by
  have h : ∀ i : Fin 64, data_bin2ascii.getD i.val 'A' ≠ '\n' := by decide
  exact h ⟨a % 64, Nat.mod_lt _ (by decide)⟩

theorem conv_bin2ascii_ne_pad (a : Nat) : conv_bin2ascii a ≠ '=' := by
  have h : ∀ i : Fin 64, data_bin2ascii.getD i.val 'A' ≠ '=' := by decide
  exact h ⟨a % 64, Nat.mod_lt _ (by decide)⟩

theorem read_bytes_length (p : Nat → Nat) (n : Nat) : (read_bytes p n).length = n := by
  induction n with
  | zero => rfl
  | succ k ih => simp [read_bytes, ih]

theorem EVP_EncodeBlock_length (bytes : List Nat) :
    (EVP_EncodeBlock bytes).length = 4 * ((bytes.length + 2) / 3) := by
  induction bytes using EVP_EncodeBlock.induct with
  | case1 b0 b1 b2 rest ih =>
    simp only [EVP_EncodeBlock, List.length_cons, ih]
    omega
  | case2 b0 b1 => simp [EVP_EncodeBlock]
  | case3 b0 => simp [EVP_EncodeBlock]
  | case4 => simp [EVP_EncodeBlock]

theorem newline_not_mem_EVP_EncodeBlock (bytes : List Nat) : '\n' ∉ EVP_EncodeBlock bytes := by
  induction bytes using EVP_EncodeBlock.induct with
  | case1 b0 b1 b2 rest ih =>
    simp only [EVP_EncodeBlock, List.mem_cons, not_or]
    exact ⟨(conv_bin2ascii_ne_newline _).symm, (conv_bin2ascii_ne_newline _).symm,
      (conv_bin2ascii_ne_newline _).symm, (conv_bin2ascii_ne_newline _).symm, ih⟩
  | case2 b0 b1 =>
    simp only [EVP_EncodeBlock, List.mem_cons, not_or, List.mem_nil_iff, not_false_eq_true,
      and_true]
    exact ⟨(conv_bin2ascii_ne_newline _).symm, (conv_bin2ascii_ne_newline _).symm,
      (conv_bin2ascii_ne_newline _).symm, by decide⟩
  | case3 b0 =>
    simp only [EVP_EncodeBlock, List.mem_cons, not_or, List.mem_nil_iff, not_false_eq_true,
      and_true]
    exact ⟨(conv_bin2ascii_ne_newline _).symm, (conv_bin2ascii_ne_newline _).symm,
      by decide, by decide⟩
  | case4 => simp [EVP_EncodeBlock]

theorem EVP_EncodeBlock_tail_two (bytes : List Nat) (h : bytes.length % 3 = 2) :
    ∃ pre c, EVP_EncodeBlock bytes = pre ++ [c, '='] ∧ c ≠ '=' := by
  induction bytes using EVP_EncodeBlock.induct with
  | case1 b0 b1 b2 rest ih =>
    have hr : rest.length % 3 = 2 := by
      simp only [List.length_cons] at h
      omega
    obtain ⟨pre, c, hpre, hc⟩ := ih hr
    refine ⟨conv_bin2ascii ((b0 * 65536 + b1 * 256 + b2) / 262144)
      :: conv_bin2ascii ((b0 * 65536 + b1 * 256 + b2) / 4096)
      :: conv_bin2ascii ((b0 * 65536 + b1 * 256 + b2) / 64)
      :: conv_bin2ascii (b0 * 65536 + b1 * 256 + b2) :: pre, c, ?_, hc⟩
    simp only [EVP_EncodeBlock, hpre, List.cons_append]
  | case2 b0 b1 =>
    exact ⟨[conv_bin2ascii ((b0 * 65536 + b1 * 256) / 262144),
      conv_bin2ascii ((b0 * 65536 + b1 * 256) / 4096)],
      conv_bin2ascii ((b0 * 65536 + b1 * 256) / 64), rfl, conv_bin2ascii_ne_pad _⟩
  | case3 b0 => simp at h
  | case4 => simp at h

theorem BIO_f_base64_one_line (fuel : Nat) (bytes : List Nat) (h0 : bytes ≠ [])
    (h : bytes.length ≤ 48) :
    BIO_f_base64 (fuel + 2) bytes = EVP_EncodeBlock bytes ++ ['\n'] := by
  simp [BIO_f_base64, h0, List.take_of_length_le h, List.drop_of_length_le h]

theorem size_t_to_int_small (n : Nat) (h : n < 2 ^ 31) : size_t_to_int n = (n : Int) := by
  have h1 : n % 2 ^ 32 = n := Nat.mod_eq_of_lt (by omega)
  unfold size_t_to_int
  rw [h1, if_pos h]

theorem size_t_to_int_long : size_t_to_int (2 ^ 31) = -2147483648 := by
  decide

theorem HMAC_short_key (mac : String → String → Option (Nat → Nat)) (key data : String)
    (hk : key.length < 2 ^ 31) : HMAC mac key (size_t_to_int key.length) data = mac key data := by
  have hlen : ((key.length : Nat) : Int).toNat = key.data.length := rfl
  unfold HMAC
  rw [size_t_to_int_small _ hk, if_neg (by omega), hlen, List.take_length]

theorem hmac_sha256_of_null (mac : String → String → Option (Nat → Nat)) (key data : String)
    (h : HMAC mac key (size_t_to_int key.length) data = none) :
    hmac_sha256 mac key data = "" := by
  unfold hmac_sha256
  rw [h]
  rfl

theorem hmac_sha256_of_buffer (mac : String → String → Option (Nat → Nat)) (key data : String)
    (p : Nat → Nat) (h : HMAC mac key (size_t_to_int key.length) data = some p) :
    hmac_sha256 mac key data = String.mk (EVP_EncodeBlock (read_bytes p 32)) := by
  have hlen := read_bytes_length p 32
  have h0 : read_bytes p 32 ≠ [] := by
    intro e
    rw [e] at hlen
    simp at hlen
  unfold hmac_sha256
  rw [h]
  simp only [BIO_write_flush, BIO_f_base64_one_line 31 _ h0 (by omega)]
  simp

theorem EVP_EncodeBlock_32 (bytes : List Nat) (hlen : bytes.length = 32) :
    (EVP_EncodeBlock bytes).length = 44
    ∧ (EVP_EncodeBlock bytes).getLast? = some '='
    ∧ (EVP_EncodeBlock bytes).dropLast.getLast? ≠ some '='
    ∧ '\n' ∉ EVP_EncodeBlock bytes := by
  have h44 : (EVP_EncodeBlock bytes).length = 44 := by
    rw [EVP_EncodeBlock_length, hlen]
  obtain ⟨pre, c, hpre, hc⟩ := EVP_EncodeBlock_tail_two bytes (by rw [hlen])
  refine ⟨h44, ?_, ?_, newline_not_mem_EVP_EncodeBlock _⟩
  · rw [hpre]
    simp
  · have : (pre ++ [c, '=']).dropLast = pre ++ [c] := by
      rw [show pre ++ [c, '='] = (pre ++ [c]) ++ ['='] by simp, List.dropLast_concat]
    rw [hpre]
    simp [this, hc]

/-- For a key shorter than `2 ^ 31` bytes on which the digest primitive answers with a
buffer, `hmac_sha256` returns the Base64 text of the 32 bytes of the buffer: 44
characters, the last one `=`, the one before it not `=`, no line feed. -/
theorem hmac_sha256_short_key (mac : String → String → Option (Nat → Nat))
    (key data : String) (p : Nat → Nat) (hk : key.length < 2 ^ 31)
    (hp : mac key data = some p) :
    hmac_sha256 mac key data = String.mk (EVP_EncodeBlock (read_bytes p 32))
    ∧ (hmac_sha256 mac key data).length = 44
    ∧ (hmac_sha256 mac key data).data.getLast? = some '='
    ∧ (hmac_sha256 mac key data).data.dropLast.getLast? ≠ some '='
    ∧ '\n' ∉ (hmac_sha256 mac key data).data := by
  have hlen := read_bytes_length p 32
  rw [hmac_sha256_of_buffer mac key data p (by rw [HMAC_short_key mac key data hk, hp])]
  generalize read_bytes p 32 = bytes at hlen ⊢
  exact ⟨rfl, EVP_EncodeBlock_32 bytes hlen⟩

theorem hmac_sha256_examples :
    hmac_sha256 counting_digest "k" "d" = "AAECAwQFBgcICQoLDA0ODxAREhMUFRYXGBkaGxwdHh8="
    ∧ hmac_sha256 zero_digest "" "" = "AAAAAAAAAAAAAAAAAAAAAAAAAAAAAAAAAAAAAAAAAAA="
    ∧ read_bytes (fun i => 256 + i) 3 = [0, 1, 2] := by
  decide

theorem long_key_length : long_key.length = 2 ^ 31 := by
  unfold long_key
  rw [String.length_mk, List.length_replicate]

/-- C4, the code at the failing input: for a key of `2 ^ 31` bytes the length narrows to
the negative `int` -2147483648, `HMAC` answers with a null pointer whatever the digest
primitive is, nothing reaches the Base64 filter, and `hmac_sha256` returns the empty
string for every data string, not a Base64 text of 44 characters. -/
theorem hmac_sha256_long_key_is_empty (mac : String → String → Option (Nat → Nat))
    (data : String) :
    long_key.length = 2 ^ 31
    ∧ size_t_to_int long_key.length = -2147483648
    ∧ HMAC mac long_key (size_t_to_int long_key.length) data = none
    ∧ hmac_sha256 mac long_key data = ""
    ∧ (hmac_sha256 mac long_key data).length ≠ 44 := by
  have h1 : size_t_to_int long_key.length = -2147483648 := by
    rw [long_key_length]
    exact size_t_to_int_long
  have h2 : HMAC mac long_key (size_t_to_int long_key.length) data = none := by
    unfold HMAC
    rw [h1, if_pos (by decide)]
  have h3 := hmac_sha256_of_null mac long_key data h2
  refine ⟨long_key_length, h1, h2, h3, ?_⟩
  rw [h3]
  decide

/-! ## Substring search -/

theorem find_from_of_prefix (needle s : List Char) (i : Nat)
    (h : needle.isPrefixOf s = true) : find_from needle s i = i := by
  cases s with
  | nil => simp [find_from, h]
  | cons c cs => simp [find_from, h]

theorem find_from_cons_skip (needle : List Char) (c : Char) (cs : List Char) (i : Nat)
    (h : needle.isPrefixOf (c :: cs) = false) :
    find_from needle (c :: cs) i = find_from needle cs (i + 1) := by
  simp [find_from, h]

theorem find_from_not_found (needle : List Char) : ∀ (s : List Char) (i : Nat),
    ¬ needle <:+: s → find_from needle s i = npos := by
  intro s
  induction s with
  | nil =>
    intro i h
    have hn : needle ≠ [] := fun e => h (e ▸ List.infix_refl _)
    cases needle with
    | nil => exact absurd rfl hn
    | cons a as => simp [find_from, List.isPrefixOf]
  | cons c cs ih =>
    intro i h
    have hp : ¬ needle <+: c :: cs := fun hp => h hp.isInfix
    have hi : ¬ needle <:+: cs := fun hi => h (List.infix_cons hi)
    have hb : needle.isPrefixOf (c :: cs) = false := by
      rw [Bool.eq_false_iff]
      intro e
      exact hp (List.isPrefixOf_iff_prefix.mp e)
    rw [find_from_cons_skip _ _ _ _ hb]
    exact ih (i + 1) hi

theorem not_prefix_of_first (needle : List Char) (c : Char) (p rest : List Char)
    (h : ¬ needle <:+: c :: (p ++ needle.dropLast)) :
    needle.isPrefixOf (c :: (p ++ needle ++ rest)) = false := by
  have hne : needle ≠ [] := fun e => h (e ▸ List.nil_infix)
  rw [Bool.eq_false_iff]
  intro e
  have hp : needle <+: c :: (p ++ needle ++ rest) := List.isPrefixOf_iff_prefix.mp e
  have hq : c :: (p ++ needle.dropLast) <+: c :: (p ++ needle ++ rest) := by
    refine ⟨[needle.getLast hne] ++ rest, ?_⟩
    conv_rhs => rw [← List.dropLast_append_getLast hne]
    simp
  have hlen : needle.length ≤ (c :: (p ++ needle.dropLast)).length := by
    have := List.length_pos_of_ne_nil hne
    simp
    omega
  exact h (List.prefix_of_prefix_length_le hp hq hlen).isInfix

theorem find_from_first (needle : List Char) (rest : List Char) : ∀ (pre : List Char) (i : Nat),
    ¬ needle <:+: pre ++ needle.dropLast →
    find_from needle (pre ++ needle ++ rest) i = i + pre.length := by
  intro pre
  induction pre with
  | nil =>
    intro i _
    have hb : needle.isPrefixOf (needle ++ rest) = true :=
      List.isPrefixOf_iff_prefix.mpr (List.prefix_append _ _)
    simpa using find_from_of_prefix needle (needle ++ rest) i hb
  | cons c p ih =>
    intro i h
    have hi : ¬ needle <:+: p ++ needle.dropLast := fun hi => h (List.infix_cons hi)
    have hb := not_prefix_of_first needle c p rest h
    show find_from needle (c :: (p ++ needle ++ rest)) i = _
    rw [find_from_cons_skip _ _ _ _ hb, ih (i + 1) hi, List.length_cons]
    omega

theorem find_from_cases (needle : List Char) (hne : needle ≠ []) : ∀ (s : List Char) (i : Nat),
    find_from needle s i = npos ∨
    ∃ pre rest, s = pre ++ needle ++ rest ∧ ¬ needle <:+: pre ++ needle.dropLast
      ∧ find_from needle s i = i + pre.length := by
  have hshort : ¬ needle <:+: needle.dropLast := by
    intro h
    have h1 := h.length_le
    have h2 := List.length_pos_of_ne_nil hne
    simp at h1
    omega
  intro s
  induction s with
  | nil =>
    intro i
    left
    cases needle with
    | nil => exact absurd rfl hne
    | cons a as => simp [find_from, List.isPrefixOf]
  | cons c cs ih =>
    intro i
    cases hb : needle.isPrefixOf (c :: cs) with
    | true =>
      right
      obtain ⟨rest, hrest⟩ := List.isPrefixOf_iff_prefix.mp hb
      exact ⟨[], rest, by simpa using hrest.symm, by simpa using hshort,
        by simpa using find_from_of_prefix needle (c :: cs) i hb⟩
    | false =>
      rw [find_from_cons_skip _ _ _ _ hb]
      rcases ih (i + 1) with h | ⟨pre, rest, hs, hfirst, hfind⟩
      · exact Or.inl h
      · right
        refine ⟨c :: pre, rest, by simp [hs], ?_, by rw [hfind, List.length_cons]; omega⟩
        intro hin
        rcases List.infix_cons_iff.mp hin with hp | hi
        · have hq : c :: (pre ++ needle.dropLast) <+: c :: cs := by
            refine ⟨[needle.getLast hne] ++ rest, ?_⟩
            rw [hs]
            conv_rhs => rw [← List.dropLast_append_getLast hne]
            simp
          have := List.isPrefixOf_iff_prefix.mpr (hp.trans hq)
          rw [hb] at this
          exact absurd this (by decide)
        · exact hfirst hi

theorem singleton_infix_iff (c : Char) (l : List Char) : [c] <:+: l ↔ c ∈ l := by
  constructor
  · rintro ⟨a, b, rfl⟩
    simp
  · intro h
    obtain ⟨a, b, rfl⟩ := List.append_of_mem h
    exact ⟨a, b, by simp⟩

theorem find_first (s needle : String) (a pre rest : List Char)
    (hs : s.data = a ++ (pre ++ needle.data ++ rest))
    (hfirst : ¬ needle.data <:+: pre ++ needle.data.dropLast) :
    find s needle a.length = a.length + pre.length := by
  have hlen : ¬ a.length > s.length := by
    show ¬ a.length > s.data.length
    rw [hs]
    simp
  unfold find
  rw [if_neg hlen, hs, List.drop_left]
  exact find_from_first needle.data rest pre a.length hfirst

theorem find_cases (s needle : String) (hne : needle.data ≠ []) (a b : List Char)
    (hs : s.data = a ++ b) :
    find s needle a.length = npos ∨
    ∃ pre rest, b = pre ++ needle.data ++ rest ∧ ¬ needle.data <:+: pre ++ needle.data.dropLast
      ∧ find s needle a.length = a.length + pre.length := by
  unfold find
  split
  · exact Or.inl rfl
  · rw [hs, List.drop_left]
    exact find_from_cases needle.data hne b a.length

theorem size_t_add_small (a b : Nat) (h : a + b < 2 ^ 64) : size_t_add a b = a + b :=
  Nat.mod_eq_of_lt h

theorem size_t_sub_small (a b : Nat) (hb : b ≤ a) (h : a < 2 ^ 64) : size_t_sub a b = a - b := by
  unfold size_t_sub
  have : a + 2 ^ 64 - b = (a - b) + 2 ^ 64 := by omega
  rw [this, Nat.add_mod_right]
  exact Nat.mod_eq_of_lt (by omega)

theorem broadcast_id_of_shape (text : String) (pre mid val rest : List Char)
    (hlen : text.length < npos)
    (hs : text.data = pre ++ id_key ++ mid ++ '"' :: val ++ '"' :: rest)
    (hfirst : ¬ id_key <:+: pre ++ id_key.dropLast)
    (hmid : '"' ∉ mid) (hval : '"' ∉ val) :
    broadcast_id text = String.mk val := by
  have hL : text.data.length < 2 ^ 64 - 1 := hlen
  have hL2 := hL
  rw [hs] at hL2
  simp only [List.length_append, List.length_cons, id_key, List.length_nil] at hL2
  have h1 : find text "\"id\":" 0 = pre.length := by
    have := find_first text "\"id\":" [] pre (mid ++ '"' :: val ++ '"' :: rest)
      (by simpa [id_key] using hs) hfirst
    simpa using this
  have h2 : find text "\"" (pre.length + 5) = pre.length + 5 + mid.length := by
    have := find_first text "\"" (pre ++ id_key) mid (val ++ '"' :: rest)
      (by simpa using hs) (by simpa [singleton_infix_iff] using hmid)
    have hl : (pre ++ id_key).length = pre.length + 5 := by simp [id_key]
    rwa [hl] at this
  have h3 : find text "\"" (pre.length + 5 + mid.length + 1)
      = pre.length + 5 + mid.length + 1 + val.length := by
    have := find_first text "\"" (pre ++ id_key ++ mid ++ ['"']) val rest
      (by simpa using hs) (by simpa [singleton_infix_iff] using hval)
    have hl : (pre ++ id_key ++ mid ++ ['"']).length = pre.length + 5 + mid.length + 1 := by
      simp only [List.length_append, List.length_cons, List.length_nil, id_key]
    rwa [hl] at this
  have e1 : size_t_add pre.length 5 = pre.length + 5 := size_t_add_small _ _ (by omega)
  have e2 : size_t_add (pre.length + 5 + mid.length) 1 = pre.length + 5 + mid.length + 1 :=
    size_t_add_small _ _ (by omega)
  have e3 : size_t_sub (pre.length + 5 + mid.length + 1 + val.length)
      (pre.length + 5 + mid.length) = val.length + 1 := by
    rw [size_t_sub_small _ _ (by omega) (by omega)]
    omega
  have e4 : size_t_sub (val.length + 1) 1 = val.length := by
    rw [size_t_sub_small _ _ (by omega) (by omega)]
    omega
  have n1 : pre.length ≠ npos := by unfold npos; omega
  have n2 : pre.length + 5 + mid.length ≠ npos := by unfold npos; omega
  have n3 : pre.length + 5 + mid.length + 1 + val.length ≠ npos := by unfold npos; omega
  have hdrop : text.data.drop (pre.length + 5 + mid.length + 1) = val ++ '"' :: rest := by
    rw [hs]
    have hl : pre.length + 5 + mid.length + 1 = (pre ++ id_key ++ mid ++ ['"']).length := by
      simp only [List.length_append, List.length_cons, List.length_nil, id_key]
    rw [hl]
    have : pre ++ id_key ++ mid ++ '"' :: val ++ '"' :: rest
        = (pre ++ id_key ++ mid ++ ['"']) ++ (val ++ '"' :: rest) := by simp
    rw [this, List.drop_left]
  unfold broadcast_id
  simp only [h1, e1, h2, e2, h3, e3, e4, n1, n2, n3, ne_eq, not_false_eq_true, and_self,
    if_true, substr, hdrop]
  simp

theorem broadcast_id_nonempty_shape (text : String) (hlen : text.length < npos)
    (h : broadcast_id text ≠ "") :
    ∃ pre mid val rest, text.data = pre ++ id_key ++ mid ++ '"' :: val ++ '"' :: rest
      ∧ ¬ id_key <:+: pre ++ id_key.dropLast ∧ '"' ∉ mid ∧ '"' ∉ val := by
  have hL : text.data.length < 2 ^ 64 - 1 := hlen
  rcases find_cases text "\"id\":" (by decide) [] text.data rfl with h1 | ⟨pre, r0, hs0, hfirst, h1⟩
  · exfalso
    apply h
    simp only [List.length_nil] at h1
    unfold broadcast_id
    simp only [h1, ne_eq, not_true_eq_false, if_false]
  · simp only [List.length_nil, Nat.zero_add] at h1
    have hk : ("\"id\":" : String).data = id_key := rfl
    rw [hk] at hs0 hfirst
    have hkl : id_key.length = 5 := rfl
    have hL0 := hL
    rw [hs0] at hL0
    simp only [List.length_append, hkl] at hL0
    have e1 : size_t_add pre.length 5 = (pre ++ id_key).length := by
      rw [size_t_add_small _ _ (by omega), List.length_append, hkl]
    rcases find_cases text "\"" (by decide) (pre ++ id_key) r0 hs0 with h2 | ⟨mid, r1, hs1, hm, h2⟩
    · exfalso
      apply h
      unfold broadcast_id
      simp only [h1, e1, h2, ne_eq, not_true_eq_false, false_and, if_false, ite_self]
    · have hq : ("\"" : String).data = ['"'] := rfl
      rw [hq] at hs1 hm
      have hL1 := hL0
      rw [hs1] at hL1
      simp only [List.length_append, List.length_singleton] at hL1
      have hs1' : text.data = (pre ++ id_key ++ mid ++ ['"']) ++ r1 := by
        rw [hs0, hs1]
        simp
      have e2 : size_t_add ((pre ++ id_key).length + mid.length) 1
          = (pre ++ id_key ++ mid ++ ['"']).length := by
        simp only [List.length_append, List.length_cons, List.length_nil, hkl]
        exact size_t_add_small _ _ (by omega)
      rcases find_cases text "\"" (by decide) _ r1 hs1' with h3 | ⟨val, rest, hs2, hv, -⟩
      · exfalso
        apply h
        unfold broadcast_id
        simp only [h1, e1, h2, e2, h3, ne_eq, not_true_eq_false, and_false, if_false, ite_self]
      · rw [hq] at hs2 hv
        refine ⟨pre, mid, val, rest, ?_, hfirst, ?_, ?_⟩
        · rw [hs1', hs2]
          simp
        · simpa [singleton_infix_iff] using hm
        · simpa [singleton_infix_iff] using hv

theorem broadcast_id_no_key (text : String) (h : ¬ id_key <:+: text.data) :
    broadcast_id text = "" := by
  have h1 : find text "\"id\":" 0 = npos := by
    unfold find
    rw [if_neg (by omega), List.drop_zero]
    exact find_from_not_found _ _ _ h
  unfold broadcast_id
  simp only [h1, ne_eq, not_true_eq_false, if_false]

/-- C6: on the expected response shape the extraction in `main` returns the value of the
`id` field, and the empty string when there is none: for every string `v` without a
double quote (backslashes allowed), the body `{"id":"` ++ v ++ `"}`, of a length below
`npos` as every `std::string` is, yields exactly `v`; and every body that does not
contain the text `"id":` yields the empty string. -/
theorem broadcast_id_expected_shape :
    (∀ v : String, '"' ∉ v.data → ("\x7b\"id\":\"" ++ v ++ "\"\x7d").length < npos →
      broadcast_id ("\x7b\"id\":\"" ++ v ++ "\"\x7d") = v)
    ∧ (∀ body : String, ¬ "\"id\":".data <:+: body.data → broadcast_id body = "") := by
  refine ⟨fun v hv hlen => ?_, fun body h => broadcast_id_no_key body h⟩
  exact broadcast_id_of_shape _ ['\x7b'] [] v.data ['\x7d'] hlen
    (by simp [String.data_append, id_key]) (by decide) (by simp) hv

/-- Witness of C6: `{"id":"abc-123"}` yields `abc-123`, and `{}` yields the empty string. -/
theorem broadcast_id_expected_shape_witness :
    ('"' ∉ "abc-123".data ∧ ("\x7b\"id\":\"" ++ "abc-123" ++ "\"\x7d").length < npos
      ∧ "\x7b\"id\":\"" ++ "abc-123" ++ "\"\x7d" = "\x7b\"id\":\"abc-123\"\x7d"
      ∧ broadcast_id ("\x7b\"id\":\"" ++ "abc-123" ++ "\"\x7d") = "abc-123")
    ∧ (¬ "\"id\":".data <:+: "\x7b\x7d".data ∧ broadcast_id "\x7b\x7d" = "") :=
  ⟨⟨by decide, by decide, by decide,
      broadcast_id_expected_shape.1 "abc-123" (by decide) (by decide)⟩,
   ⟨by decide, broadcast_id_expected_shape.2 "\x7b\x7d" (by decide)⟩⟩

/-- C7, counterexample: three valid JSON objects on which the extraction in `main`
differs from the top-level lookup of a string field `id`. For `{"id": 5, "name":"bob"}`
the lookup gives absent and the code gives `name`; for `{"a":{"id":"x"}}` the lookup
gives absent and the code gives `x`; for `{"id" : "x"}` the lookup gives `x` and the
code gives the empty string. -/
theorem broadcast_id_differs_from_top_level_lookup :
    (extractField "\x7b\"id\": 5, \"name\":\"bob\"\x7d" "id" = Except.ok none
      ∧ broadcast_id "\x7b\"id\": 5, \"name\":\"bob\"\x7d" = "name")
    ∧ (extractField "\x7b\"a\":\x7b\"id\":\"x\"\x7d\x7d" "id" = Except.ok none
      ∧ broadcast_id "\x7b\"a\":\x7b\"id\":\"x\"\x7d\x7d" = "x")
    ∧ (extractField "\x7b\"id\" : \"x\"\x7d" "id" = Except.ok (some "x")
      ∧ broadcast_id "\x7b\"id\" : \"x\"\x7d" = "") := by
  refine ⟨⟨rfl, by decide⟩, ⟨rfl, by decide⟩, ⟨rfl, by decide⟩⟩

/-- C7, amended: the extraction in `main` is a substring search. For every response body
of a length below `npos`: whenever the body reads `pre ++ "id": ++ mid ++ " ++ val ++ "
++ rest`, where this is the first occurrence of the text `"id":` and neither `mid` nor
`val` holds a double quote, the result is `val`; and a non-empty result arises only from
such a reading of the body. On the three bodies `{"id": 5, "name":"bob"}`,
`{"a":{"id":"x"}}` and `{"id" : "x"}` the results are `name`, `x` and the empty string. -/
theorem broadcast_id_is_substring_search :
    (∀ text : String, text.length < npos →
      (∀ pre mid val rest : List Char,
        text.data = pre ++ "\"id\":".data ++ mid ++ '"' :: val ++ '"' :: rest →
        ¬ "\"id\":".data <:+: pre ++ "\"id\"".data → '"' ∉ mid → '"' ∉ val →
        broadcast_id text = String.mk val)
      ∧ (broadcast_id text ≠ "" →
        ∃ pre mid val rest : List Char,
          text.data = pre ++ "\"id\":".data ++ mid ++ '"' :: val ++ '"' :: rest
          ∧ ¬ "\"id\":".data <:+: pre ++ "\"id\"".data ∧ '"' ∉ mid ∧ '"' ∉ val
          ∧ broadcast_id text = String.mk val))
    ∧ broadcast_id "\x7b\"id\": 5, \"name\":\"bob\"\x7d" = "name"
    ∧ broadcast_id "\x7b\"a\":\x7b\"id\":\"x\"\x7d\x7d" = "x"
    ∧ broadcast_id "\x7b\"id\" : \"x\"\x7d" = "" := by
  refine ⟨fun text hlen => ⟨?_, ?_⟩, by decide, by decide, by decide⟩
  · intro pre mid val rest hs hfirst hmid hval
    exact broadcast_id_of_shape text pre mid val rest hlen hs hfirst hmid hval
  · intro h
    obtain ⟨pre, mid, val, rest, hs, hfirst, hmid, hval⟩ :=
      broadcast_id_nonempty_shape text hlen h
    exact ⟨pre, mid, val, rest, hs, hfirst, hmid, hval,
      broadcast_id_of_shape text pre mid val rest hlen hs hfirst hmid hval⟩

/-- Witness of C7 amended: `{"id": 5, "name":"bob"}` reads as `{`, the key, ` 5, `, the
quoted `name` and the rest, so the result is `name`. -/
theorem broadcast_id_is_substring_search_witness :
    "\x7b\"id\": 5, \"name\":\"bob\"\x7d".length < npos
    ∧ "\x7b\"id\": 5, \"name\":\"bob\"\x7d".data
        = "\x7b".data ++ "\"id\":".data ++ " 5, ".data ++ '"' :: "name".data
          ++ '"' :: ":\"bob\"\x7d".data
    ∧ ¬ "\"id\":".data <:+: "\x7b".data ++ "\"id\"".data
    ∧ '"' ∉ " 5, ".data ∧ '"' ∉ "name".data
    ∧ broadcast_id "\x7b\"id\": 5, \"name\":\"bob\"\x7d" = String.mk "name".data :=
  ⟨by decide, by decide, by decide, by decide, by decide,
    (broadcast_id_is_substring_search.1 "\x7b\"id\": 5, \"name\":\"bob\"\x7d" (by decide)).1
      "\x7b".data " 5, ".data "name".data ":\"bob\"\x7d".data
      (by decide) (by decide) (by decide) (by decide)⟩

/-! ## `send_mekari_request` and `main` -/

theorem send_post (mac : String → String → Option (Nat → Nat)) (t : Int) (transport : HttpCall → Response)
    (path body : String) :
    send_mekari_request mac t transport "POST" path body
      = ([HttpCall.Post (BASE_URL ++ path)
            (generate_headers mac t "POST" path CLIENT_ID CLIENT_SECRET) body],
         transport (HttpCall.Post (BASE_URL ++ path)
            (generate_headers mac t "POST" path CLIENT_ID CLIENT_SECRET) body)) := by
  unfold send_mekari_request
  simp only [if_true]

theorem send_get (mac : String → String → Option (Nat → Nat)) (t : Int) (transport : HttpCall → Response)
    (path body : String) :
    send_mekari_request mac t transport "GET" path body
      = ([HttpCall.Get (BASE_URL ++ path)
            (generate_headers mac t "GET" path CLIENT_ID CLIENT_SECRET)],
         transport (HttpCall.Get (BASE_URL ++ path)
            (generate_headers mac t "GET" path CLIENT_ID CLIENT_SECRET))) := by
  unfold send_mekari_request
  rw [if_neg (by decide), if_pos rfl]

theorem send_mekari_request_other_method (mac : String → String → Option (Nat → Nat))
    (t : Int) (transport : HttpCall → Response) (method path json_payload : String)
    (hpost : method ≠ "POST") (hget : method ≠ "GET") :
    send_mekari_request mac t transport method path json_payload = ([], Response.default) := by
  unfold send_mekari_request
  simp only [hpost, hget, if_false]

/-- C5, the code at the failing inputs: for the methods `PUT` and `DELETE`, whatever the
digest primitive, the clock reading, the transport, the path and the body are,
`send_mekari_request` makes no transport call and hands back the default response,
status code 0 with an empty body; nothing reports that the method is unsupported. -/
theorem send_mekari_request_silent_on_put_and_delete
    (mac : String → String → Option (Nat → Nat)) (t : Int) (transport : HttpCall → Response)
    (path json_payload : String) :
    send_mekari_request mac t transport "PUT" path json_payload = ([], ⟨0, ""⟩)
    ∧ send_mekari_request mac t transport "DELETE" path json_payload = ([], ⟨0, ""⟩) :=
  ⟨send_mekari_request_other_method mac t transport "PUT" path json_payload
      (by decide) (by decide),
   send_mekari_request_other_method mac t transport "DELETE" path json_payload
      (by decide) (by decide)⟩

/-- C8, counterexample: the body `not json` is not valid JSON and `{}` merely lacks the
field, which the extractor of the specification tells apart (`ParseError` against
absent); the code gives the same empty string for both, and `main` ends with the same
message on `std::cerr` and the same exit code. -/
theorem invalid_json_not_distinguished :
    extractField "not json" "id" = Except.error ExtractError.ParseError
    ∧ extractField "\x7b\x7d" "id" = Except.ok none
    ∧ broadcast_id "not json" = broadcast_id "\x7b\x7d"
    ∧ (main zero_digest 0 10 (constant_transport "not json")).stderr
        = (main zero_digest 0 10 (constant_transport "\x7b\x7d")).stderr
    ∧ (main zero_digest 0 10 (constant_transport "not json")).exit_code
        = (main zero_digest 0 10 (constant_transport "\x7b\x7d")).exit_code := by
  refine ⟨rfl, rfl, by decide, by decide, by decide⟩

/-- C8, amended: for every response body that does not contain the text `"id":`, valid
JSON or not, the extraction gives the empty string, the result it also gives for a
missing field; when the status code is 201, `main` then writes
`Broadcast ID not found in response.` to `std::cerr`, makes no further call and exits
with code 1. -/
theorem main_without_id_key (mac : String → String → Option (Nat → Nat)) (t1 t2 : Int)
    (transport : HttpCall → Response)
    (hstatus : (transport (create_call mac t1)).status_code = 201)
    (hkey : ¬ "\"id\":".data <:+: (transport (create_call mac t1)).text.data) :
    broadcast_id (transport (create_call mac t1)).text = ""
    ∧ (main mac t1 t2 transport).stderr = "Broadcast ID not found in response.\n"
    ∧ (main mac t1 t2 transport).exit_code = 1
    ∧ (main mac t1 t2 transport).calls = [create_call mac t1] := by
  have hid := broadcast_id_no_key _ hkey
  refine ⟨hid, ?_⟩
  unfold main
  simp only [send_post, send_get, log_path]
  rw [if_neg (by simpa [create_call] using hstatus), if_pos (by simpa [create_call] using hid)]
  exact ⟨rfl, rfl, rfl⟩

/-- Witness of C8 amended at the body `not json`. -/
theorem main_without_id_key_witness :
    (constant_transport "not json" (create_call zero_digest 0)).status_code = 201
    ∧ ¬ "\"id\":".data <:+: (constant_transport "not json" (create_call zero_digest 0)).text.data
    ∧ broadcast_id (constant_transport "not json" (create_call zero_digest 0)).text = ""
    ∧ (main zero_digest 0 10 (constant_transport "not json")).stderr
        = "Broadcast ID not found in response.\n"
    ∧ (main zero_digest 0 10 (constant_transport "not json")).exit_code = 1
    ∧ (main zero_digest 0 10 (constant_transport "not json")).calls
        = [create_call zero_digest 0] :=
  ⟨rfl, by decide,
    main_without_id_key zero_digest 0 10 (constant_transport "not json") rfl (by decide)⟩

/-- C9: for every response to the create call, `main` issues the follow-up `GET` exactly
when the status code is 201 and the extracted id is non-empty; the path of that `GET` is
`/qontak/chat/v1/broadcasts/` ++ id ++ `/whatsapp/log` and the exit code is 0; in every
other case the create call is the only call and the exit code is 1. -/
theorem main_follow_up_get (mac : String → String → Option (Nat → Nat)) (t1 t2 : Int)
    (transport : HttpCall → Response) :
    (((transport (create_call mac t1)).status_code = 201
        ∧ broadcast_id (transport (create_call mac t1)).text ≠ "") →
      (main mac t1 t2 transport).calls
        = [create_call mac t1,
           HttpCall.Get
            (BASE_URL ++ ("/qontak/chat/v1/broadcasts/"
              ++ broadcast_id (transport (create_call mac t1)).text ++ "/whatsapp/log"))
            (generate_headers mac t2 "GET"
              ("/qontak/chat/v1/broadcasts/"
                ++ broadcast_id (transport (create_call mac t1)).text ++ "/whatsapp/log")
              CLIENT_ID CLIENT_SECRET)]
      ∧ (main mac t1 t2 transport).exit_code = 0)
    ∧ (¬ ((transport (create_call mac t1)).status_code = 201
        ∧ broadcast_id (transport (create_call mac t1)).text ≠ "") →
      (main mac t1 t2 transport).calls = [create_call mac t1]
      ∧ (main mac t1 t2 transport).exit_code = 1) := by
  unfold main
  simp only [send_post, send_get, log_path]
  constructor
  · rintro ⟨h1, h2⟩
    rw [if_neg (by simpa [create_call] using h1), if_neg (by simpa [create_call] using h2)]
    exact ⟨rfl, rfl⟩
  · intro h
    by_cases h1 : (transport (create_call mac t1)).status_code = 201
    · have h2 : broadcast_id (transport (create_call mac t1)).text = "" := by
        by_contra h2
        exact h ⟨h1, h2⟩
      rw [if_neg (by simpa [create_call] using h1), if_pos (by simpa [create_call] using h2)]
      exact ⟨rfl, rfl⟩
    · rw [if_pos (by simpa [create_call] using h1)]
      exact ⟨rfl, rfl⟩

/-- Witness of C9: status 201 with the body `{"id":"xyz"}` leads to a `GET` of
`/qontak/chat/v1/broadcasts/xyz/whatsapp/log` under the base URL, and to exit code 0. -/
theorem main_follow_up_get_witness :
    ((example_transport (create_call zero_digest 0)).status_code = 201
      ∧ broadcast_id (example_transport (create_call zero_digest 0)).text ≠ "")
    ∧ (main zero_digest 0 10 example_transport).calls
        = [create_call zero_digest 0,
           HttpCall.Get "https://api.mekari.com/qontak/chat/v1/broadcasts/xyz/whatsapp/log"
            (generate_headers zero_digest 10 "GET"
              "/qontak/chat/v1/broadcasts/xyz/whatsapp/log" CLIENT_ID CLIENT_SECRET)]
    ∧ (main zero_digest 0 10 example_transport).exit_code = 0 :=
  ⟨⟨by decide, by decide⟩,
    (main_follow_up_get zero_digest 0 10 example_transport).1 ⟨by decide, by decide⟩⟩

/-- C10: the signing payload built by `generate_headers` determines the request it signs.
The payload of a timestamp, a method and a path is the string `"date: " ++ ts ++ "\n" ++
m ++ " " ++ p ++ " HTTP/1.1"`; for all timestamps without a line feed, all methods
without a space and all paths, two equal payloads have equal timestamps, equal methods
and equal paths; and the two different requests with method `GET /a`, path `b` and with
method `GET`, path `/a b` have the same payload, so the methods must be free of
spaces. -/
theorem payload_determines_request :
    (∀ ts1 ts2 m1 m2 p1 p2 : String, '\n' ∉ ts1.data → '\n' ∉ ts2.data →
      ' ' ∉ m1.data → ' ' ∉ m2.data →
      payload ts1 m1 p1 = payload ts2 m2 p2 → ts1 = ts2 ∧ m1 = m2 ∧ p1 = p2)
    ∧ (∀ ts m p : String,
      payload ts m p = "date: " ++ ts ++ "\n" ++ m ++ " " ++ p ++ " HTTP/1.1")
    ∧ (' ' ∈ "GET /a".data ∧ ("GET /a", "b") ≠ ("GET", "/a b")
      ∧ payload "Thu, 01 Jan 1970 00:00:00 GMT" "GET /a" "b"
          = "date: Thu, 01 Jan 1970 00:00:00 GMT\nGET /a b HTTP/1.1"
      ∧ payload "Thu, 01 Jan 1970 00:00:00 GMT" "GET" "/a b"
          = "date: Thu, 01 Jan 1970 00:00:00 GMT\nGET /a b HTTP/1.1") := by
  refine ⟨?_, ?_, by decide, by decide, by decide, by decide⟩
  · intro ts1 ts2 m1 m2 p1 p2 h1 h2 h3 h4 h
    have hd := congrArg String.data h
    rw [payload_data, payload_data] at hd
    have hd1 := List.append_cancel_left hd
    obtain ⟨e1, hd2⟩ := append_cons_inj '\n' _ _ _ _ h1 h2 hd1
    obtain ⟨e2, hd3⟩ := append_cons_inj ' ' _ _ _ _ h3 h4 hd2
    have e3 := List.append_cancel_right hd3
    exact ⟨String.ext e1, String.ext e2, String.ext e3⟩
  · intro ts m p
    simp only [payload, request_line, String.append_assoc]

/-- Witness of C10: the payload of the epoch timestamp, `GET` and `/test` against the
payload of the rendered clock reading 0, `GET` and `/test`. -/
theorem payload_determines_request_witness :
    ('\n' ∉ (datetime_str 0).data ∧ '\n' ∉ "Thu, 01 Jan 1970 00:00:00 GMT".data
      ∧ ' ' ∉ "GET".data
      ∧ payload (datetime_str 0) "GET" "/test"
          = payload "Thu, 01 Jan 1970 00:00:00 GMT" "GET" "/test")
    ∧ datetime_str 0 = "Thu, 01 Jan 1970 00:00:00 GMT"
    ∧ "GET" = "GET" ∧ "/test" = "/test" :=
  ⟨⟨by decide, by decide, by decide, by decide⟩,
    payload_determines_request.1 (datetime_str 0) "Thu, 01 Jan 1970 00:00:00 GMT"
      "GET" "GET" "/test" "/test" (by decide) (by decide) (by decide) (by decide)
      (by decide)⟩

end Mekari
